import Mathlib

/-!
# NatCat Event Monitor — verification of the exposure-matching core

Shallow embedding of `src/services.py` (and the data model of
`src/models.py`) of the NatCat Event Monitor repository:

* `calculate_distance_km` — haversine great-circle distance (floats are
  modelled as exact reals);
* `find_exposed_treaties` — per-event exposure matching with a stable sort
  by stored distance (Python's stable `list.sort` is modelled by
  `List.insertionSort`, which is stable);
* `summarize_exposure` — deduplicating aggregation of alerts (Python's
  insertion-ordered `dict` is modelled by an association list, Python's
  `set` by a list queried through `contains`).

The theorems at the end of the file settle the specification claims about
these functions.
-/

namespace NatCat

/-- Model of `Earthquake` from `src/models.py`: seismic event data.
The timestamp is modelled as an integer epoch value; float fields are
modelled as reals. -/
structure Earthquake where
  id : String
  magnitude : ℝ
  latitude : ℝ
  longitude : ℝ
  place : String
  time : Int
  depth_km : ℝ

/-- Model of `Treaty` from `src/models.py`: reinsurance treaty with a
circular geographic coverage zone. -/
structure Treaty where
  id : String
  name : String
  peril : String
  region : String
  latitude : ℝ
  longitude : ℝ
  radius_km : ℝ
  limit_usd : Int

/-- Model of `ExposureAlert` from `src/models.py`: an earthquake/treaty
pairing with the computed (rounded) distance. -/
structure ExposureAlert where
  earthquake : Earthquake
  treaty : Treaty
  distance_km : ℝ

/-- Model of the summary dictionary returned by `summarize_exposure`. -/
structure ExposureSummary where
  total_alerts : Nat
  total_exposure_usd : Int
  affected_treaties : List String
  by_region : List (String × Int)
deriving DecidableEq

/-! ## Association-list model of the Python `dict[str, int]` `by_region`

Python dictionaries preserve insertion order; a fresh key is appended at
the end, and `+=` updates the entry in place. -/

/-- `k in by_region` membership test on the association list. -/
def alistMem (k : String) (m : List (String × Int)) : Bool :=
  m.any (fun p => p.1 == k)

/-- Update the (first) entry with key `k` in place, leaving the rest of
the list untouched; models `by_region[k] = f(by_region[k])`. -/
def alistUpdate (k : String) (f : Int → Int) : List (String × Int) → List (String × Int)
  | [] => []
  | p :: rest => if p.1 = k then (p.1, f p.2) :: rest else p :: alistUpdate k f rest

/-- Read access `by_region[k]` (as an `Option`, `none` when absent). -/
def alistLookup (k : String) : List (String × Int) → Option Int
  | [] => none
  | p :: rest => if p.1 = k then some p.2 else alistLookup k rest

/-- The two-line Python idiom
`if k not in by_region: by_region[k] = 0` followed by
`by_region[k] += v`. -/
def regionAdd (k : String) (v : Int) (m : List (String × Int)) : List (String × Int) :=
  alistUpdate k (fun x => x + v) (if alistMem k m then m else m ++ [(k, 0)])

/-! ## The summarizer loop of `summarize_exposure` -/

/-- The four loop variables of `summarize_exposure`:
`seen_treaties` (a set, modelled as a list queried via `contains`),
`total_exposure`, `by_region` and `treaty_names`. -/
structure SummState where
  seen : List String
  total : Int
  by_region : List (String × Int)
  names : List String

/-- One iteration of the `for alert in alerts` loop of
`summarize_exposure` in `src/services.py`. -/
def summStep (s : SummState) (alert : ExposureAlert) : SummState :=
  let treaty := alert.treaty
  if treaty.id ∉ s.seen then
    { seen := treaty.id :: s.seen
      total := s.total + treaty.limit_usd
      by_region := regionAdd treaty.region treaty.limit_usd s.by_region
      names := s.names ++ [treaty.name] }
  else s

/-- Model of `summarize_exposure` from `src/services.py`, including its
explicit early return on the empty alert list. -/
def summarize_exposure (alerts : List ExposureAlert) : ExposureSummary :=
  if alerts.isEmpty then
    { total_alerts := 0
      total_exposure_usd := 0
      affected_treaties := []
      by_region := [] }
  else
    let final := alerts.foldl summStep ⟨[], 0, [], []⟩
    { total_alerts := alerts.length
      total_exposure_usd := final.total
      affected_treaties := final.names
      by_region := final.by_region }

/-! ## Specification-side description of the deduplication

`firstOccTreaties` keeps, in order of first appearance and keyed by the
zone identifier, one representative per distinct zone of an alert
sequence. It is the reference against which the aggregation of
`summarize_exposure` is proved. -/

/-- Deduplicate a treaty list by identifier, keeping first occurrences in
input order, with `seen` the identifiers already encountered. -/
def firstOccAux (seen : List String) : List Treaty → List Treaty
  | [] => []
  | t :: ts =>
    if t.id ∈ seen then firstOccAux seen ts
    else t :: firstOccAux (t.id :: seen) ts

/-- The distinct treaties of a list, keyed by identifier, in order of
first appearance. -/
def firstOccTreaties (ts : List Treaty) : List Treaty :=
  firstOccAux [] ts

/-- Total limit of the distinct treaties lying in region `r`. -/
def regionLimitSum (r : String) (ts : List Treaty) : Int :=
  ((ts.filter (fun t => t.region == r)).map (fun t => t.limit_usd)).sum

/-! ## Geodesic distance calculator

`math.radians`, `math.atan2` and `calculate_distance_km` of
`src/services.py`, with Python floats modelled as exact reals. -/

/-- `math.radians`: degrees to radians. -/
noncomputable def radians (deg : ℝ) : ℝ :=
  deg * (Real.pi / 180)

/-- `math.atan2 y x`: the two-argument arctangent, with the usual
quadrant corrections and `atan2 0 0 = 0`. -/
noncomputable def atan2 (y x : ℝ) : ℝ :=
  if 0 < x then Real.arctan (y / x)
  else if x < 0 then
    (if 0 ≤ y then Real.arctan (y / x) + Real.pi else Real.arctan (y / x) - Real.pi)
  else
    (if 0 < y then Real.pi / 2 else if y < 0 then -(Real.pi / 2) else 0)

/-- Python's `round` at scale 1 (round half to even, "banker's
rounding"), on exact reals. -/
noncomputable def roundHalfToEven (x : ℝ) : Int :=
  if Int.fract x < 1 / 2 then ⌊x⌋
  else if 1 / 2 < Int.fract x then ⌊x⌋ + 1
  else if ⌊x⌋ % 2 = 0 then ⌊x⌋ else ⌊x⌋ + 1

/-- `round(x, 2)`: round to 2 decimal places. -/
noncomputable def round2 (x : ℝ) : ℝ :=
  (roundHalfToEven (x * 100) : ℝ) / 100

/-- Model of `calculate_distance_km` from `src/services.py`: great-circle
distance between two latitude/longitude points by the haversine formula
with Earth radius 6371.0 km. -/
noncomputable def calculate_distance_km (lat1 lon1 lat2 lon2 : ℝ) : ℝ :=
  let R : ℝ := 6371.0
  let lat1_rad := radians lat1
  let lat2_rad := radians lat2
  let delta_lat := radians (lat2 - lat1)
  let delta_lon := radians (lon2 - lon1)
  let a := Real.sin (delta_lat / 2) ^ 2 +
    Real.cos lat1_rad * Real.cos lat2_rad * Real.sin (delta_lon / 2) ^ 2
  let c := 2 * atan2 (Real.sqrt a) (Real.sqrt (1 - a))
  R * c

/-! ## Exposure matcher -/

/-- The `for treaty in treaties` accumulation loop of
`find_exposed_treaties`: one alert, carrying the rounded distance, per
treaty whose (unrounded) distance to the epicenter is within the treaty
radius, in input order. -/
noncomputable def buildAlerts (earthquake : Earthquake) : List Treaty → List ExposureAlert
  | [] => []
  | treaty :: rest =>
    let distance := calculate_distance_km earthquake.latitude earthquake.longitude
      treaty.latitude treaty.longitude
    if distance ≤ treaty.radius_km then
      ⟨earthquake, treaty, round2 distance⟩ :: buildAlerts earthquake rest
    else
      buildAlerts earthquake rest

/-- The sort key of `alerts.sort(key=lambda a: a.distance_km)`. -/
def distLE (a b : ExposureAlert) : Prop :=
  a.distance_km ≤ b.distance_km

noncomputable instance : DecidableRel distLE :=
  fun a b => Real.decidableLE a.distance_km b.distance_km

/-- Model of `find_exposed_treaties` from `src/services.py`: build the
alert list in treaty order, then sort it in place by stored distance.
Python's `list.sort` is a stable sort; it is modelled by
`List.insertionSort`, which is stable. -/
noncomputable def find_exposed_treaties (earthquake : Earthquake) (treaties : List Treaty) :
    List ExposureAlert :=
  List.insertionSort distLE (buildAlerts earthquake treaties)

/-! ## Lemmas about the association-list operations -/

theorem alistMem_iff_isSome (k : String) (m : List (String × Int)) :
    alistMem k m = true ↔ (alistLookup k m).isSome = true := by
  induction m with
  | nil => simp [alistMem, alistLookup]
  | cons p rest ih =>
    by_cases h : p.1 = k
    · simp [alistMem, alistLookup, h]
    · have hb : (p.1 == k) = false := by simp [h]
      simp [alistMem, alistLookup, h, hb, ih, alistMem] at ih ⊢
      exact ih

theorem alistLookup_append (k : String) (m l2 : List (String × Int)) :
    alistLookup k (m ++ l2) =
      match alistLookup k m with
      | some v => some v
      | none => alistLookup k l2 := by
  induction m with
  | nil => simp [alistLookup]
  | cons p rest ih =>
    by_cases h : p.1 = k
    · simp [alistLookup, h]
    · simp [alistLookup, h, ih]

theorem alistLookup_alistUpdate_self (k : String) (f : Int → Int) (m : List (String × Int)) :
    alistLookup k (alistUpdate k f m) = (alistLookup k m).map f := by
  induction m with
  | nil => simp [alistLookup, alistUpdate]
  | cons p rest ih =>
    by_cases h : p.1 = k
    · simp [alistLookup, alistUpdate, h]
    · simp [alistLookup, alistUpdate, h, ih]

theorem alistLookup_alistUpdate_ne (k k' : String) (f : Int → Int)
    (m : List (String × Int)) (hkk : k ≠ k') :
    alistLookup k' (alistUpdate k f m) = alistLookup k' m := by
  induction m with
  | nil => simp [alistUpdate]
  | cons p rest ih =>
    by_cases h : p.1 = k
    · have h' : p.1 ≠ k' := by rw [h]; exact hkk
      simp [alistLookup, alistUpdate, h, h', hkk]
    · by_cases h' : p.1 = k'
      · have hk : k' ≠ k := fun he => h (h'.trans he)
        simp [alistLookup, alistUpdate, h, h', hk]
      · simp [alistLookup, alistUpdate, h, h', ih]

theorem alistUpdate_append_not_mem (k : String) (f : Int → Int) (x : Int)
    (m : List (String × Int)) (h : alistMem k m = false) :
    alistUpdate k f (m ++ [(k, x)]) = m ++ [(k, f x)] := by
  induction m with
  | nil => simp [alistUpdate]
  | cons p rest ih =>
    simp only [alistMem, List.any_cons, Bool.or_eq_false_iff] at h
    have h1 : p.1 ≠ k := by
      intro he; rw [he] at h; simp at h
    have h2 : alistMem k rest = false := h.2
    simp [alistUpdate, h1, ih h2]

theorem sumVals_alistUpdate_add (k : String) (v : Int) (m : List (String × Int))
    (h : alistMem k m = true) :
    ((alistUpdate k (fun x => x + v) m).map (fun p => p.2)).sum
      = (m.map (fun p => p.2)).sum + v := by
  induction m with
  | nil => simp [alistMem] at h
  | cons p rest ih =>
    by_cases h1 : p.1 = k
    · simp [alistUpdate, h1]
      ring
    · have hb : (p.1 == k) = false := by simp [h1]
      simp only [alistMem, List.any_cons, hb, Bool.false_or] at h
      simp [alistUpdate, h1, ih h]
      ring

theorem sumVals_regionAdd (k : String) (v : Int) (m : List (String × Int)) :
    ((regionAdd k v m).map (fun p => p.2)).sum = (m.map (fun p => p.2)).sum + v := by
  unfold regionAdd
  by_cases h : alistMem k m = true
  · rw [if_pos h]
    exact sumVals_alistUpdate_add k v m h
  · have h' : alistMem k m = false := by
      cases hb : alistMem k m
      · rfl
      · exact absurd hb h
    rw [if_neg (by simp [h'])]
    rw [alistUpdate_append_not_mem k _ 0 m h']
    simp

theorem alistLookup_regionAdd_self (k : String) (v : Int) (m : List (String × Int)) :
    alistLookup k (regionAdd k v m) = some ((alistLookup k m).getD 0 + v) := by
  unfold regionAdd
  by_cases h : alistMem k m = true
  · rw [if_pos h]
    rw [alistLookup_alistUpdate_self]
    rcases ho : alistLookup k m with _ | w
    · rw [alistMem_iff_isSome] at h
      rw [ho] at h
      simp at h
    · simp
  · have h' : alistMem k m = false := by
      cases hb : alistMem k m
      · rfl
      · exact absurd hb h
    have hnone : alistLookup k m = none := by
      rcases ho : alistLookup k m with _ | w
      · rfl
      · have : alistMem k m = true := by
          rw [alistMem_iff_isSome, ho]
          rfl
        rw [this] at h'
        simp at h'
    rw [if_neg (by simp [h'])]
    rw [alistUpdate_append_not_mem k _ 0 m h']
    rw [alistLookup_append, hnone]
    simp [alistLookup]

theorem alistLookup_regionAdd_ne (k k' : String) (v : Int) (m : List (String × Int))
    (hkk : k ≠ k') :
    alistLookup k' (regionAdd k v m) = alistLookup k' m := by
  unfold regionAdd
  by_cases h : alistMem k m = true
  · rw [if_pos h]
    exact alistLookup_alistUpdate_ne k k' _ m hkk
  · rw [if_neg h]
    rw [alistLookup_alistUpdate_ne k k' _ _ hkk]
    rw [alistLookup_append]
    rcases ho : alistLookup k' m with _ | w
    · simp [alistLookup, hkk]
    · rfl

/-! ## Behaviour of the summarizer loop -/

theorem summStep_seen (s : SummState) (a : ExposureAlert)
    (h : a.treaty.id ∈ s.seen) : summStep s a = s := by
  simp [summStep, h]

theorem summStep_new (s : SummState) (a : ExposureAlert)
    (h : a.treaty.id ∉ s.seen) :
    summStep s a = ⟨a.treaty.id :: s.seen, s.total + a.treaty.limit_usd,
      regionAdd a.treaty.region a.treaty.limit_usd s.by_region,
      s.names ++ [a.treaty.name]⟩ := by
  simp [summStep, h]

theorem firstOccAux_cons_mem (seen : List String) (t : Treaty) (ts : List Treaty)
    (h : t.id ∈ seen) : firstOccAux seen (t :: ts) = firstOccAux seen ts := by
  simp [firstOccAux, h]

theorem firstOccAux_cons_new (seen : List String) (t : Treaty) (ts : List Treaty)
    (h : t.id ∉ seen) :
    firstOccAux seen (t :: ts) = t :: firstOccAux (t.id :: seen) ts := by
  simp [firstOccAux, h]

theorem foldl_summStep_total (l : List ExposureAlert) :
    ∀ s : SummState, (l.foldl summStep s).total
      = s.total
        + ((firstOccAux s.seen (l.map (fun a => a.treaty))).map (fun t => t.limit_usd)).sum := by
  induction l with
  | nil => intro s; simp [firstOccAux]
  | cons a l ih =>
    intro s
    by_cases h : a.treaty.id ∈ s.seen
    · rw [List.foldl_cons, summStep_seen s a h, ih, List.map_cons,
        firstOccAux_cons_mem _ _ _ h]
    · rw [List.foldl_cons, summStep_new s a h, ih, List.map_cons,
        firstOccAux_cons_new _ _ _ h, List.map_cons, List.sum_cons, add_assoc]

theorem foldl_summStep_names (l : List ExposureAlert) :
    ∀ s : SummState, (l.foldl summStep s).names
      = s.names ++ (firstOccAux s.seen (l.map (fun a => a.treaty))).map (fun t => t.name) := by
  induction l with
  | nil => intro s; simp [firstOccAux]
  | cons a l ih =>
    intro s
    by_cases h : a.treaty.id ∈ s.seen
    · rw [List.foldl_cons, summStep_seen s a h, ih, List.map_cons,
        firstOccAux_cons_mem _ _ _ h]
    · rw [List.foldl_cons, summStep_new s a h, ih, List.map_cons,
        firstOccAux_cons_new _ _ _ h, List.map_cons]
      simp

theorem foldl_summStep_sumVals (l : List ExposureAlert) :
    ∀ s : SummState, ((l.foldl summStep s).by_region.map (fun p => p.2)).sum
      = (s.by_region.map (fun p => p.2)).sum
        + ((firstOccAux s.seen (l.map (fun a => a.treaty))).map (fun t => t.limit_usd)).sum := by
  induction l with
  | nil => intro s; simp [firstOccAux]
  | cons a l ih =>
    intro s
    by_cases h : a.treaty.id ∈ s.seen
    · rw [List.foldl_cons, summStep_seen s a h, ih, List.map_cons,
        firstOccAux_cons_mem _ _ _ h]
    · rw [List.foldl_cons, summStep_new s a h, ih, List.map_cons,
        firstOccAux_cons_new _ _ _ h, List.map_cons, List.sum_cons]
      show (((regionAdd a.treaty.region a.treaty.limit_usd s.by_region).map
          (fun p => p.2)).sum) + _ = _
      rw [sumVals_regionAdd, add_assoc, add_comm a.treaty.limit_usd, ← add_assoc]

theorem foldl_summStep_lookup (l : List ExposureAlert) :
    ∀ (s : SummState) (r : String),
      alistLookup r (l.foldl summStep s).by_region =
        match alistLookup r s.by_region with
        | some v => some (v + (((firstOccAux s.seen (l.map (fun a => a.treaty))).filter
            (fun t => t.region == r)).map (fun t => t.limit_usd)).sum)
        | none =>
          if ((firstOccAux s.seen (l.map (fun a => a.treaty))).filter
              (fun t => t.region == r)).isEmpty then none
          else some ((((firstOccAux s.seen (l.map (fun a => a.treaty))).filter
            (fun t => t.region == r)).map (fun t => t.limit_usd)).sum) := by
  induction l with
  | nil =>
    intro s r
    rcases ho : alistLookup r s.by_region with _ | v <;> simp [firstOccAux, ho]
  | cons a l ih =>
    intro s r
    by_cases h : a.treaty.id ∈ s.seen
    · rw [List.foldl_cons, summStep_seen s a h, ih, List.map_cons,
        firstOccAux_cons_mem _ _ _ h]
    · rw [List.foldl_cons, summStep_new s a h, ih, List.map_cons,
        firstOccAux_cons_new _ _ _ h]
      by_cases hr : a.treaty.region = r
      · have hbr : (a.treaty.region == r) = true := by simp [hr]
        rw [show regionAdd a.treaty.region a.treaty.limit_usd s.by_region
              = regionAdd r a.treaty.limit_usd s.by_region by rw [hr]]
        rw [alistLookup_regionAdd_self]
        rcases ho : alistLookup r s.by_region with _ | v <;>
          simp [ho, hbr, List.filter_cons, add_assoc]
      · have hbr : (a.treaty.region == r) = false := by simp [hr]
        rw [alistLookup_regionAdd_ne _ _ _ _ hr]
        simp [List.filter_cons, hbr]

/-! ## Behaviour of the exposure matcher -/

theorem buildAlerts_eq (e : Earthquake) (ts : List Treaty) :
    buildAlerts e ts
      = (ts.filter (fun t => decide (calculate_distance_km e.latitude e.longitude
          t.latitude t.longitude ≤ t.radius_km))).map
        (fun t => ⟨e, t, round2 (calculate_distance_km e.latitude e.longitude
          t.latitude t.longitude)⟩) := by
  induction ts with
  | nil => rfl
  | cons t ts ih =>
    by_cases h : calculate_distance_km e.latitude e.longitude t.latitude t.longitude
        ≤ t.radius_km
    · simp [buildAlerts, List.filter_cons, h, ih]
    · simp [buildAlerts, List.filter_cons, h, ih]

instance : IsTotal ExposureAlert distLE :=
  ⟨fun a b => le_total a.distance_km b.distance_km⟩

instance : IsTrans ExposureAlert distLE :=
  ⟨fun _ _ _ hab hbc => le_trans hab hbc⟩

theorem filter_distEq_orderedInsert_pos (d : ℝ) (a : ExposureAlert)
    (l : List ExposureAlert) (ha : a.distance_km = d) :
    (List.orderedInsert distLE a l).filter (fun x => decide (x.distance_km = d))
      = a :: l.filter (fun x => decide (x.distance_km = d)) := by
  induction l with
  | nil => simp [ha]
  | cons b bs ih =>
    by_cases hb : distLE a b
    · simp [hb, List.filter_cons, ha]
    · have hblt : b.distance_km < a.distance_km := not_le.mp hb
      have hbd : ¬(b.distance_km = d) := by rw [← ha]; exact ne_of_lt hblt
      simp [hb, List.filter_cons, hbd, ih]

theorem filter_distEq_orderedInsert_ne (d : ℝ) (a : ExposureAlert)
    (l : List ExposureAlert) (ha : ¬(a.distance_km = d)) :
    (List.orderedInsert distLE a l).filter (fun x => decide (x.distance_km = d))
      = l.filter (fun x => decide (x.distance_km = d)) := by
  induction l with
  | nil => simp [ha]
  | cons b bs ih =>
    by_cases hb : distLE a b
    · simp [hb, List.filter_cons, ha]
    · simp [hb, List.filter_cons, ih]

theorem filter_distEq_insertionSort (d : ℝ) (l : List ExposureAlert) :
    (List.insertionSort distLE l).filter (fun x => decide (x.distance_km = d))
      = l.filter (fun x => decide (x.distance_km = d)) := by
  induction l with
  | nil => rfl
  | cons a l ih =>
    show (List.orderedInsert distLE a (List.insertionSort distLE l)).filter _ = _
    by_cases ha : a.distance_km = d
    · rw [filter_distEq_orderedInsert_pos d a _ ha, ih]
      simp [List.filter_cons, ha]
    · rw [filter_distEq_orderedInsert_ne d a _ ha, ih]
      simp [List.filter_cons, ha]

/-! ## Pointwise identities of the distance calculator -/

theorem radians_sub_sq_sin (x y : ℝ) :
    Real.sin ((x - y) * (Real.pi / 180) / 2) ^ 2
      = Real.sin ((y - x) * (Real.pi / 180) / 2) ^ 2 := by
  rw [show (x - y) * (Real.pi / 180) / 2 = -((y - x) * (Real.pi / 180) / 2) by ring]
  rw [Real.sin_neg, neg_sq]

/-! ## Claim theorems -/

/-- C3: `calculate_distance_km` applied to two identical points returns
exactly `0`, with no near-zero artifact: every intermediate quantity of
the haversine formula vanishes exactly (`Δlat = Δlon = 0`, `a = 0`,
`atan2 0 1 = 0`), so the result is exactly `0`. -/
theorem calculate_distance_km_self_eq_zero (lat lon : ℝ) :
    calculate_distance_km lat lon lat lon = 0 := by
  simp [calculate_distance_km, radians, atan2]

/-- C4: `calculate_distance_km` is exactly symmetric in its two points:
swapping the two latitude/longitude pairs yields the identical value,
because the haversine formula is built from squared sines of negated
differences and a commuted cosine product. -/
theorem calculate_distance_km_symm (lat1 lon1 lat2 lon2 : ℝ) :
    calculate_distance_km lat1 lon1 lat2 lon2
      = calculate_distance_km lat2 lon2 lat1 lon1 := by
  simp only [calculate_distance_km, radians]
  rw [radians_sub_sq_sin lat2 lat1, radians_sub_sq_sin lon2 lon1,
    mul_comm (Real.cos (lat1 * (Real.pi / 180))) (Real.cos (lat2 * (Real.pi / 180)))]

/-- C1: `find_exposed_treaties` is exactly the stable sort of the alerts
built from the zones whose unrounded distance to the epicenter is within
the zone radius (inclusive `≤`), each alert storing the distance rounded
to 2 decimals; equivalently, an alert pairing the event with a zone `z`
(carrying the rounded distance) exists iff `z` is in the input list and
its unrounded distance is at most `z.radius_km`. The inclusion test uses
the raw distance; rounding touches only the stored value. -/
theorem exposure_alert_iff_within_radius (e : Earthquake) (zs : List Treaty) :
    find_exposed_treaties e zs
        = List.insertionSort distLE ((zs.filter (fun z =>
            decide (calculate_distance_km e.latitude e.longitude z.latitude z.longitude
              ≤ z.radius_km))).map
          (fun z => ⟨e, z, round2 (calculate_distance_km e.latitude e.longitude
            z.latitude z.longitude)⟩))
      ∧ ∀ z : Treaty,
        (∃ a, a ∈ find_exposed_treaties e zs ∧ a.treaty = z
            ∧ a.earthquake = e
            ∧ a.distance_km = round2 (calculate_distance_km e.latitude e.longitude
                z.latitude z.longitude)) ↔
          (z ∈ zs ∧ calculate_distance_km e.latitude e.longitude z.latitude z.longitude
            ≤ z.radius_km) := by
  have hb := buildAlerts_eq e zs
  constructor
  · unfold find_exposed_treaties
    rw [hb]
  · intro z
    constructor
    · rintro ⟨a, ha, haz, -, -⟩
      have hmem : a ∈ buildAlerts e zs := by
        unfold find_exposed_treaties at ha
        exact (List.mem_insertionSort distLE).mp ha
      rw [hb] at hmem
      rcases List.mem_map.mp hmem with ⟨t, ht, rfl⟩
      rcases List.mem_filter.mp ht with ⟨hts, hcond⟩
      have htz : t = z := haz
      subst htz
      exact ⟨hts, of_decide_eq_true hcond⟩
    · rintro ⟨hzs, hd⟩
      refine ⟨⟨e, z, round2 (calculate_distance_km e.latitude e.longitude
        z.latitude z.longitude)⟩, ?_, rfl, rfl, rfl⟩
      unfold find_exposed_treaties
      refine (List.mem_insertionSort distLE).mpr ?_
      rw [hb]
      exact List.mem_map.mpr ⟨z, List.mem_filter.mpr ⟨hzs, decide_eq_true hd⟩, rfl⟩

/-- C5: the output of `find_exposed_treaties` is sorted ascending by the
stored (2-decimal-rounded) `distance_km`, and for every distance value
the alerts carrying it appear in the original zone-list order (stable
sort), so the output is deterministic for a fixed input ordering. -/
theorem find_exposed_sorted_stable (e : Earthquake) (zs : List Treaty) :
    List.Sorted (fun a b : ExposureAlert => a.distance_km ≤ b.distance_km)
        (find_exposed_treaties e zs)
      ∧ ∀ d : ℝ,
        (find_exposed_treaties e zs).filter (fun a => decide (a.distance_km = d))
          = ((zs.filter (fun z => decide (calculate_distance_km e.latitude e.longitude
              z.latitude z.longitude ≤ z.radius_km))).map
            (fun z => ⟨e, z, round2 (calculate_distance_km e.latitude e.longitude
              z.latitude z.longitude)⟩)).filter (fun a => decide (a.distance_km = d)) := by
  constructor
  · exact List.sorted_insertionSort distLE (buildAlerts e zs)
  · intro d
    unfold find_exposed_treaties
    rw [filter_distEq_insertionSort, buildAlerts_eq]

/-- C8: both core operations are total and return the empty/zero result
on empty input: matching any event against an empty zone list produces no
alerts, and summarizing an empty alert list gives the all-zero summary. -/
theorem empty_inputs_empty_outputs :
    (∀ e : Earthquake, find_exposed_treaties e [] = [])
      ∧ summarize_exposure []
        = { total_alerts := 0
            total_exposure_usd := 0
            affected_treaties := []
            by_region := [] } := by
  exact ⟨fun e => rfl, rfl⟩

/-! ## Bridging the summarizer to the loop lemmas -/

theorem summarize_exposure_cons (a : ExposureAlert) (l : List ExposureAlert) :
    summarize_exposure (a :: l)
      = { total_alerts := (a :: l).length
          total_exposure_usd := ((a :: l).foldl summStep ⟨[], 0, [], []⟩).total
          affected_treaties := ((a :: l).foldl summStep ⟨[], 0, [], []⟩).names
          by_region := ((a :: l).foldl summStep ⟨[], 0, [], []⟩).by_region } := by
  unfold summarize_exposure
  rw [if_neg (by simp)]

theorem summarize_total_exposure_eq (alerts : List ExposureAlert) :
    (summarize_exposure alerts).total_exposure_usd
      = ((firstOccTreaties (alerts.map (fun a => a.treaty))).map
          (fun t => t.limit_usd)).sum := by
  cases alerts with
  | nil => rfl
  | cons a l =>
    rw [summarize_exposure_cons]
    have h := foldl_summStep_total (a :: l) ⟨[], 0, [], []⟩
    dsimp only at h ⊢
    rw [h, zero_add, firstOccTreaties]

theorem summarize_names_eq (alerts : List ExposureAlert) :
    (summarize_exposure alerts).affected_treaties
      = (firstOccTreaties (alerts.map (fun a => a.treaty))).map (fun t => t.name) := by
  cases alerts with
  | nil => rfl
  | cons a l =>
    rw [summarize_exposure_cons]
    have h := foldl_summStep_names (a :: l) ⟨[], 0, [], []⟩
    dsimp only at h ⊢
    rw [h, List.nil_append, firstOccTreaties]

/-! ## Sample data for the concrete instances named by the claims -/

/-- A sample seismic event; only the identifier matters for the
summarizer. -/
def sampleEvent (i : String) (lat lon : ℝ) : Earthquake :=
  ⟨i, 5, lat, lon, "sample", 0, 10⟩

/-- A zone with a 50,000,000 USD limit. -/
def zoneOne : Treaty := ⟨"Z1", "Zone One", "EQ", "R1", 0, 0, 100, 50000000⟩

/-- A zone with a 10,000,000 USD limit in region `RS`. -/
def zoneTen : Treaty := ⟨"Z10", "Zone Ten", "EQ", "RS", 0, 0, 100, 10000000⟩

/-- A distinct zone with a 20,000,000 USD limit, same region `RS`. -/
def zoneTwenty : Treaty := ⟨"Z20", "Zone Twenty", "EQ", "RS", 1, 1, 100, 20000000⟩

/-- Three alerts from three different events, all for `zoneOne`. -/
def dupAlerts : List ExposureAlert :=
  [⟨sampleEvent "e1" 0 0, zoneOne, 1⟩, ⟨sampleEvent "e2" 0 1, zoneOne, 2⟩,
    ⟨sampleEvent "e3" 1 0, zoneOne, 3⟩]

/-- Two alerts for two distinct zones in the same region. -/
def pairAlerts : List ExposureAlert :=
  [⟨sampleEvent "e1" 0 0, zoneTen, 1⟩, ⟨sampleEvent "e1" 0 0, zoneTwenty, 2⟩]

/-- C2: `summarize_exposure` counts every alert (repeats included) in
`total_alerts`, while `total_exposure_usd` sums `limit_usd` over the
distinct zones only (first occurrence per zone identifier); in
particular three alerts for one zone of limit 50,000,000 give
`total_alerts = 3` and `total_exposure_usd = 50000000`. -/
theorem summarize_counts_alerts_dedups_exposure (alerts : List ExposureAlert) :
    (summarize_exposure alerts).total_alerts = alerts.length
      ∧ (summarize_exposure alerts).total_exposure_usd
        = ((firstOccTreaties (alerts.map (fun a => a.treaty))).map
            (fun t => t.limit_usd)).sum
      ∧ (summarize_exposure dupAlerts).total_alerts = 3
      ∧ (summarize_exposure dupAlerts).total_exposure_usd = 50000000 := by
  refine ⟨?_, summarize_total_exposure_eq alerts, rfl, rfl⟩
  cases alerts with
  | nil => rfl
  | cons a l => rw [summarize_exposure_cons]

/-- C6: `affected_treaties` lists the names of the distinct zones in
order of first appearance in the input, deduplicated by zone identifier
(not by name). -/
theorem summarize_names_first_occurrence (alerts : List ExposureAlert) :
    (summarize_exposure alerts).affected_treaties
      = (firstOccTreaties (alerts.map (fun a => a.treaty))).map (fun t => t.name) :=
  summarize_names_eq alerts

/-- C7: looking a region up in `by_region` yields the sum of `limit_usd`
over the distinct zones (deduplicated by identifier, as for
`total_exposure_usd`) of that region, and a region is a key exactly when
some distinct zone has it; the two same-region zones of `pairAlerts`
(limits 10,000,000 and 20,000,000) total 30,000,000. -/
theorem summarize_by_region_lookup (alerts : List ExposureAlert) (r : String) :
    alistLookup r (summarize_exposure alerts).by_region
      = (if ((firstOccTreaties (alerts.map (fun a => a.treaty))).filter
            (fun t => t.region == r)).isEmpty then none
         else some (regionLimitSum r (firstOccTreaties (alerts.map (fun a => a.treaty)))))
      ∧ alistLookup "RS" (summarize_exposure pairAlerts).by_region = some 30000000 := by
  refine ⟨?_, rfl⟩
  cases alerts with
  | nil => rfl
  | cons a l =>
    rw [summarize_exposure_cons]
    have h := foldl_summStep_lookup (a :: l) ⟨[], 0, [], []⟩ r
    dsimp only at h ⊢
    rw [h]
    simp only [alistLookup, firstOccTreaties, regionLimitSum]

/-- C9: the values of the `by_region` mapping sum to
`total_exposure_usd`: each distinct zone's limit enters exactly one
regional bucket and the overall total once. -/
theorem by_region_values_sum_to_total (alerts : List ExposureAlert) :
    ((summarize_exposure alerts).by_region.map (fun p => p.2)).sum
      = (summarize_exposure alerts).total_exposure_usd := by
  cases alerts with
  | nil => rfl
  | cons a l =>
    rw [summarize_exposure_cons]
    have h1 := foldl_summStep_sumVals (a :: l) ⟨[], 0, [], []⟩
    have h2 := foldl_summStep_total (a :: l) ⟨[], 0, [], []⟩
    dsimp only at h1 h2 ⊢
    rw [h1, h2]
    rfl

/-- Agreement of two alerts on the four treaty components the summarizer
reads. -/
def sameTreatyData (a b : ExposureAlert) : Prop :=
  a.treaty.id = b.treaty.id ∧ a.treaty.name = b.treaty.name
    ∧ a.treaty.region = b.treaty.region ∧ a.treaty.limit_usd = b.treaty.limit_usd

theorem summStep_congr (s : SummState) (a b : ExposureAlert)
    (h : sameTreatyData a b) : summStep s a = summStep s b := by
  obtain ⟨h1, h2, h3, h4⟩ := h
  simp only [summStep, h1, h2, h3, h4]

theorem foldl_summStep_congr {l1 l2 : List ExposureAlert}
    (h : List.Forall₂ sameTreatyData l1 l2) :
    ∀ s : SummState, l1.foldl summStep s = l2.foldl summStep s := by
  induction h with
  | nil => intro s; rfl
  | cons hab htl ih =>
    intro s
    rw [List.foldl_cons, List.foldl_cons, summStep_congr s _ _ hab]
    exact ih _

/-- C10: the summary depends only on the sequence of treaty components
(identifier, name, region, limit) of the alerts: two alert lists whose
alerts agree pairwise on those four fields produce identical summaries,
whatever their earthquakes and stored distances. -/
theorem summarize_depends_only_on_treaty_data (l1 l2 : List ExposureAlert)
    (h : List.Forall₂ sameTreatyData l1 l2) :
    summarize_exposure l1 = summarize_exposure l2 := by
  cases h with
  | nil => rfl
  | cons hab htl =>
    rw [summarize_exposure_cons, summarize_exposure_cons,
      foldl_summStep_congr (List.Forall₂.cons hab htl)]
    have hlen := htl.length_eq
    simp [hlen]

/-- Alerts with event/distance data of one kind over `zoneTen` and
`zoneOne`. -/
def obsAlerts1 : List ExposureAlert :=
  [⟨sampleEvent "e1" 0 0, zoneTen, 1⟩, ⟨sampleEvent "e2" 5 5, zoneOne, 250⟩]

/-- Alerts over the same treaties with different events and distances. -/
def obsAlerts2 : List ExposureAlert :=
  [⟨sampleEvent "e9" 3 4, zoneTen, 7⟩, ⟨sampleEvent "e8" 1 2, zoneOne, 9⟩]

/-- Witness for C10 at concrete inputs: the two sample alert lists agree
on their treaty data, and their summaries coincide. -/
theorem summarize_depends_only_on_treaty_data_witness :
    List.Forall₂ sameTreatyData obsAlerts1 obsAlerts2
      ∧ summarize_exposure obsAlerts1 = summarize_exposure obsAlerts2 := by
  have hf : List.Forall₂ sameTreatyData obsAlerts1 obsAlerts2 :=
    List.Forall₂.cons ⟨rfl, rfl, rfl, rfl⟩
      (List.Forall₂.cons ⟨rfl, rfl, rfl, rfl⟩ List.Forall₂.nil)
  exact ⟨hf, summarize_depends_only_on_treaty_data obsAlerts1 obsAlerts2 hf⟩

end NatCat
